import Mathlib

/-
  Verification development for the smart-proxy routing / lifecycle core.

  Shallow embedding of:
  - internal/store        : RouteConfig, Store (map keyed by ID, modelled as a
                            list of routes in iteration order), UpdateActivity,
                            GetRoute, GetAllRoutes
  - internal/proxy        : Handler.ServeHTTP (route matching, readiness chain
                            check with on-demand wake, forward-or-wait) and
                            Handler.handleStatusCheck (the stateless poll)
  - internal/watcher      : Watcher.checkIdleRoutes (the idle reaper tick)
  - net.SplitHostPort     : the Go stdlib helper used to strip port suffixes

  The cluster control plane (internal/k8s Client.GetDeploymentStatus and
  Client.ScaleDeployment) is external I/O; it is modelled as an oracle
  `K8s : String → String → Option (Nat × Nat)` returning
  `some (desiredReplicas, readyReplicas)` on success and `none` on error.
  Replica counts are int32 in Go but only ever compared against 0 and each
  other, so Nat is adequate.  Times and durations (int64 nanoseconds) are
  modelled as Int.  Effects (scale requests, activity updates, the chosen
  response) are made explicit as result traces.  Logging, metrics, badge
  injection and the url.Parse of the fixed-format target address (which
  succeeds for every config-representable service name) are not modelled:
  none of them feeds back into the decision logic.
-/

namespace SmartProxy

/-- internal/store DependencyConfig: a dependent deployment managed with the route. -/
structure DependencyConfig where
  Name : String
  StopOnIdle : Bool
deriving DecidableEq, Repr

/-- internal/store RouteConfig: configuration of a single proxied route. -/
structure RouteConfig where
  ID : String
  Host : String
  Path : String
  TargetService : String
  TargetPort : Nat
  Namespace : String
  Deployment : String
  Dependencies : List DependencyConfig
  IdleTimeout : Int
  LastActivity : Int
  InjectBadge : Bool
deriving DecidableEq, Repr

/-- The Store's route table.  Go keeps `map[string]*RouteConfig` keyed by ID;
we model the table as the list of routes in (arbitrary) iteration order, with
ID-uniqueness an invariant maintained by the out-of-scope admin layer. -/
abbrev Store := List RouteConfig

/-- Store.UpdateActivity: set LastActivity of the route with the given id to
the current time; unknown ids are a no-op. -/
def UpdateActivity (s : Store) (id : String) (now : Int) : Store :=
  s.map (fun r => if r.ID = id then { r with LastActivity := now } else r)

/-- Store.GetRoute: lookup by id, reporting found/not-found without error. -/
def GetRoute (s : Store) (id : String) : Option RouteConfig :=
  s.find? (fun r => r.ID == id)

/-- Store.GetAllRoutes: snapshot of all routes as value copies. In the pure
embedding a copy is the value itself. -/
def GetAllRoutes (s : Store) : List RouteConfig := s

/-- Control-plane oracle: GetDeploymentStatus, namespace → name →
`some (desiredReplicas, readyReplicas)` or `none` on query error. -/
abbrev K8s := String → String → Option (Nat × Nat)

/-- A ScaleDeployment request issued to the control plane. -/
structure ScaleCall where
  ns : String
  name : String
  replicas : Nat
deriving DecidableEq, Repr

/-- net.SplitHostPort: index of the last occurrence of a character. -/
def lastIdxOf (l : List Char) (c : Char) : Option Nat :=
  match l.reverse.findIdx? (fun x => x = c) with
  | none => none
  | some j => some (l.length - 1 - j)

/-- net.SplitHostPort (Go stdlib), host component only: `some host` when the
split succeeds, `none` on any of its error returns (missing port, too many
colons, bracket errors). -/
def splitHostPort (s : String) : Option String :=
  let l := s.toList
  match lastIdxOf l ':' with
  | none => none
  | some i =>
    if l.head? = some '[' then
      match l.findIdx? (fun x => x = ']') with
      | none => none
      | some e =>
        if e + 1 = i then
          if (l.drop 1).contains '[' || (l.drop (e + 1)).contains ']' then none
          else some (String.mk ((l.drop 1).take (e - 1)))
        else none
    else
      let host := l.take i
      if host.contains ':' then none
      else if l.contains '[' then none
      else if l.contains ']' then none
      else some (String.mk host)

/-- Host normalization in ServeHTTP / handleStatusCheck: when the host string
contains a colon, strip the port via net.SplitHostPort, keeping the original
string when the split errors. -/
def normalizeHost (s : String) : String :=
  if s.toList.contains ':' then
    match splitHostPort s with
    | some h => h
    | none => s
  else s

/-- strings.HasPrefix, modelled on the character list (byte and character
prefixes coincide under UTF-8 decoding). -/
def strStartsWith (s p : String) : Bool :=
  p.toList.isPrefixOf s.toList

/-- Matching predicate from the ServeHTTP loop: the route's host is empty or
equals the normalized request host, and the request path starts with the
route's path prefix. -/
def candMatch (normHost path : String) (r : RouteConfig) : Bool :=
  (r.Host == "" || r.Host == normHost) && strStartsWith path r.Path

/-- The `isBetterMatch` test from ServeHTTP: an unmatched state is always
beaten; otherwise a strictly longer path wins, and at equal path length a
non-empty host beats the current empty-host match. -/
def isBetterMatch (cur : Option RouteConfig) (r : RouteConfig) : Bool :=
  match cur with
  | none => true
  | some m =>
    if m.Path.length < r.Path.length then true
    else if r.Path.length = m.Path.length ∧ r.Host ≠ "" ∧ m.Host = "" then true
    else false

/-- One iteration of the route-matching loop body. -/
def matchStep (normHost path : String) (acc : Option RouteConfig) (r : RouteConfig) :
    Option RouteConfig :=
  if candMatch normHost path r then
    if isBetterMatch acc r then some r else acc
  else acc

/-- The route-matching loop of ServeHTTP (duplicated verbatim in
handleStatusCheck): fold the best-match selection over the snapshot in
iteration order. -/
def matchRoute (routes : List RouteConfig) (reqHost path : String) : Option RouteConfig :=
  routes.foldl (matchStep (normalizeHost reqHost) path) none

/-- The ordered readiness check list: the route's own deployment followed by
its dependencies in declared order. -/
def checkList (r : RouteConfig) : List String :=
  r.Deployment :: r.Dependencies.map (fun d => d.Name)

/-- One iteration of the readiness loop in ServeHTTP: a failed status query is
skipped (`continue`); zero desired replicas triggers a scale-to-1 wake and
clears allReady; zero ready replicas clears allReady; otherwise the entry
leaves the state unchanged. -/
def proxyChainStep (k8s : K8s) (ns : String) (acc : Bool × List ScaleCall)
    (name : String) : Bool × List ScaleCall :=
  match k8s ns name with
  | none => acc
  | some (replicas, readyReplicas) =>
    if replicas = 0 then (false, acc.2 ++ [ScaleCall.mk ns name 1])
    else if readyReplicas = 0 then (false, acc.2)
    else acc

/-- The readiness scan of ServeHTTP over the check list, returning the
aggregate allReady flag and the scale requests issued. -/
def proxyChainCheck (k8s : K8s) (ns : String) (names : List String) :
    Bool × List ScaleCall :=
  names.foldl (proxyChainStep k8s ns) (true, [])

/-- Per-entry status classification in handleStatusCheck: query error →
"Error"; desired 0 → "Sleep"; ready < desired → "Scaling"; else "Ready".
(The Go initializer "Unknown" is overwritten on every branch.) -/
def entryStatus (k8s : K8s) (ns name : String) : String :=
  match k8s ns name with
  | none => "Error"
  | some (replicas, readyReplicas) =>
    if replicas = 0 then "Sleep"
    else if readyReplicas < replicas then "Scaling"
    else "Ready"

/-- One iteration of the status loop in handleStatusCheck: append the entry's
name/status pair and clear allReady unless the entry is "Ready". -/
def statusStep (k8s : K8s) (ns : String) (acc : Bool × List (String × String))
    (name : String) : Bool × List (String × String) :=
  (acc.1 && (entryStatus k8s ns name == "Ready"), acc.2 ++ [(name, entryStatus k8s ns name)])

/-- An inbound request as the handler sees it: Host header, URL path, and the
`path`/`host` query parameters (Go's Query().Get returns "" when absent). -/
structure Request where
  host : String
  urlPath : String
  queryPath : String
  queryHost : String
deriving DecidableEq, Repr

/-- The handler's response outcome. -/
inductive Outcome where
  | notFound
  | badRequest
  | loading
  | statusResponse (status : String) (details : List (String × String))
  | forward (targetService nspace : String) (port : Nat)
deriving DecidableEq, Repr

/-- What one handler invocation did: the response outcome, the arguments of
the Store.UpdateActivity calls in order, the ScaleDeployment requests issued
in order, and the store state afterwards. -/
structure ServeResult where
  outcome : Outcome
  updateCalls : List String
  scaleCalls : List ScaleCall
  storeAfter : Store
deriving DecidableEq, Repr

/-- Handler.handleStatusCheck: the stateless readiness poll.  Requires the
`path` query parameter, repeats route matching on the query host/path, then
classifies every entry of the check list, reporting "ready" only when every
entry is "Ready".  It issues no scale calls, performs no activity update and
never forwards. -/
def handleStatusCheck (s : Store) (k8s : K8s) (req : Request) : ServeResult :=
  if req.queryPath = "" then
    ServeResult.mk Outcome.badRequest [] [] s
  else
    match matchRoute (GetAllRoutes s) req.queryHost req.queryPath with
    | none => ServeResult.mk Outcome.notFound [] [] s
    | some route =>
      let res := (checkList route).foldl (statusStep k8s route.Namespace) (true, [])
      ServeResult.mk
        (Outcome.statusResponse (if res.1 then "ready" else "waiting") res.2) [] [] s

/-- Handler.ServeHTTP: dispatch the special status endpoint, otherwise match a
route, record activity (once with the route's ID and, per the code's
transitional hack, once more with its Path), run the readiness chain check,
and forward exactly when the aggregate flag stayed true, else serve the
loading page. -/
def ServeHTTP (s : Store) (k8s : K8s) (now : Int) (req : Request) : ServeResult :=
  if req.urlPath = "/__smart_proxy/status" then
    handleStatusCheck s k8s req
  else
    match matchRoute (GetAllRoutes s) req.host req.urlPath with
    | none => ServeResult.mk Outcome.notFound [] [] s
    | some route =>
      let s1 := UpdateActivity s route.ID now
      let s2 := UpdateActivity s1 route.Path now
      let res := proxyChainCheck k8s route.Namespace (checkList route)
      if res.1 then
        ServeResult.mk
          (Outcome.forward route.TargetService route.Namespace route.TargetPort)
          [route.ID, route.Path] res.2 s2
      else
        ServeResult.mk Outcome.loading [route.ID, route.Path] res.2 s2

/-- Watcher.checkIdleRoutes, per-route body: when the route has been idle
longer than its timeout, query the main deployment; on query error do nothing
further for this route; when the main deployment has desired replicas > 0,
scale it to zero and then scale to zero every dependency marked StopOnIdle. -/
def reapRoute (k8s : K8s) (now : Int) (route : RouteConfig) : List ScaleCall :=
  if now - route.LastActivity > route.IdleTimeout then
    match k8s route.Namespace route.Deployment with
    | none => []
    | some (replicas, _) =>
      if replicas > 0 then
        ScaleCall.mk route.Namespace route.Deployment 0 ::
          (route.Dependencies.filter (fun d => d.StopOnIdle)).map
            (fun d => ScaleCall.mk route.Namespace d.Name 0)
      else []
  else []

/-- Watcher.checkIdleRoutes: one reaper tick over a registry snapshot,
collecting the scale requests issued in order. -/
def checkIdleRoutes (s : Store) (k8s : K8s) (now : Int) : List ScaleCall :=
  (GetAllRoutes s).flatMap (reapRoute k8s now)

/-- The per-entry readiness notion transcribed from the spec (§4.3 / claim
wording): the status query succeeds with desiredReplicas > 0 and
readyReplicas >= desiredReplicas.  Used only to state claims against the
code's behaviour. -/
def specEntryReady (k8s : K8s) (ns name : String) : Bool :=
  match k8s ns name with
  | none => false
  | some (replicas, readyReplicas) => 0 < replicas && replicas ≤ readyReplicas

/-- The condition under which an entry does NOT block forwarding in
ServeHTTP's readiness scan: the query failed (entry skipped) or both desired
and ready replica counts are non-zero. -/
def entryNonBlocking (k8s : K8s) (ns name : String) : Bool :=
  match k8s ns name with
  | none => true
  | some (replicas, readyReplicas) => !(replicas = 0) && !(readyReplicas = 0)

/- Concrete inputs used by counterexamples and witnesses. -/

/-- A catch-all route whose readiness depends on the single deployment "main". -/
def routeC1 : RouteConfig :=
  RouteConfig.mk "r1" "" "/" "svc" 80 "ns" "main" [] 0 0 false

/-- Oracle reporting desired 2, ready 1 for every workload (partially scaled). -/
def k8sPartial : K8s := fun _ _ => some (2, 1)

/-- Oracle failing every status query. -/
def k8sNone : K8s := fun _ _ => none

/-- Oracle reporting every workload asleep (desired 0). -/
def k8sAsleep : K8s := fun _ _ => some (0, 0)

/-- Oracle reporting every workload fully ready at 1/1. -/
def k8sReady : K8s := fun _ _ => some (1, 1)

/-- An idle route (LastActivity 0, IdleTimeout 10) with one StopOnIdle dependency. -/
def routeC2 : RouteConfig :=
  RouteConfig.mk "r2" "" "/" "svc" 80 "ns" "main" [DependencyConfig.mk "dep1" true] 10 0 false

/-- Matched route for the C5 scenario. -/
def routeA5 : RouteConfig :=
  RouteConfig.mk "idA" "" "/app" "sa" 80 "ns" "da" [] 0 0 false

/-- A second route whose ID happens to equal routeA5's path prefix. -/
def routeB5 : RouteConfig :=
  RouteConfig.mk "/app" "" "/zzz" "sb" 80 "ns" "db" [] 0 0 false

/-- Tie candidate A for the matcher: wildcard host, prefix "/p". -/
def routeTieA : RouteConfig :=
  RouteConfig.mk "a" "" "/p" "sa" 80 "ns" "da" [] 0 0 false

/-- Tie candidate B: same prefix length and host class as routeTieA. -/
def routeTieB : RouteConfig :=
  RouteConfig.mk "b" "" "/p" "sb" 80 "ns" "db" [] 0 0 false

/-- Matching priority, length component: the length of the route's path
prefix (Go compares byte lengths; character counts coincide on ASCII and
order the same candidates). -/
def prioLen (r : RouteConfig) : Nat := r.Path.length

/-- Matching priority, host component: 1 for an exact-host route, 0 for a
wildcard (empty) host. -/
def prioHost (r : RouteConfig) : Nat := if r.Host = "" then 0 else 1

/-- Lexicographic priority order on routes induced by the matcher's
better-match test: longer path prefix first, then exact host over wildcard. -/
def prLe (a b : RouteConfig) : Prop :=
  prioLen a < prioLen b ∨ (prioLen a = prioLen b ∧ prioHost a ≤ prioHost b)

instance (a b : RouteConfig) : Decidable (prLe a b) := by
  unfold prLe; infer_instance

/-- Every RouteConfig field except LastActivity, used to state frame
properties of activity updates. -/
def routeShape (r : RouteConfig) :
    String × String × String × String × Nat × String × String ×
      List DependencyConfig × Int × Bool :=
  (r.ID, r.Host, r.Path, r.TargetService, r.TargetPort, r.Namespace,
   r.Deployment, r.Dependencies, r.IdleTimeout, r.InjectBadge)

/-- Tie-free companion to routeTieA: same prefix length but exact host. -/
def routeTieC : RouteConfig :=
  RouteConfig.mk "c" "h" "/p" "sc" 80 "ns" "dc" [] 0 0 false

/-- The spec §8 example wildcard route: any host, prefix "/". -/
def routeWild : RouteConfig :=
  RouteConfig.mk "r1" "" "/" "s1" 80 "ns" "d1" [] 0 0 false

/-- The spec §8 example host-specific route: host app.example.com, prefix "/api". -/
def routeApi : RouteConfig :=
  RouteConfig.mk "r2" "app.example.com" "/api" "s2" 80 "ns" "d2" [] 0 0 false

/- Counterexamples refuting the claims as stated. -/

/-- C1: the claim that forwarding occurs only when every entry is Ready
(query succeeded, desired > 0, ready >= desired) is false: with the single
check-list entry at desired 2 / ready 1 — not Ready — the request is still
forwarded. -/
theorem c1_counterexample :
    (ServeHTTP [routeC1] k8sPartial 0 (Request.mk "h" "/x" "" "")).outcome =
      Outcome.forward "svc" "ns" 80 ∧
    specEntryReady k8sPartial "ns" "main" = false := by
  exact ⟨by decide, by decide⟩

/-- C2: the claim that on an idle route every StopOnIdle dependency is scaled
to zero regardless of the main deployment's status query is false: when the
main deployment's query fails, the tick issues no scale call at all, although
the route is idle and carries a StopOnIdle dependency. -/
theorem c2_counterexample :
    checkIdleRoutes [routeC2] k8sNone 100 = [] ∧
    (100 : Int) - routeC2.LastActivity > routeC2.IdleTimeout ∧
    DependencyConfig.mk "dep1" true ∈ routeC2.Dependencies := by
  exact ⟨by decide, by decide, by decide⟩

/-- C3: the claim that a failed status query makes allReady false so that the
request is not forwarded is false on the request path: with the only entry's
query failing, ServeHTTP still forwards. -/
theorem c3_counterexample :
    (ServeHTTP [routeC1] k8sNone 0 (Request.mk "h" "/x" "" "")).outcome =
      Outcome.forward "svc" "ns" 80 ∧
    k8sNone "ns" "main" = none := by
  exact ⟨by decide, rfl⟩

/-- C4: the claim that the poll operation issues a scale-to-1 wake request for
every entry with desired replicas 0 is false: the poll reports the entry as
Sleep and not ready but issues no scale call. -/
theorem c4_counterexample :
    (ServeHTTP [routeC1] k8sAsleep 0
        (Request.mk "h" "/__smart_proxy/status" "/x" "h")).scaleCalls = [] ∧
    (ServeHTTP [routeC1] k8sAsleep 0
        (Request.mk "h" "/__smart_proxy/status" "/x" "h")).outcome =
      Outcome.statusResponse "waiting" [("main", "Sleep")] := by
  exact ⟨by decide, by decide⟩

/-- C5: the claim that no registry mutation beyond the matched route's single
activity update occurs is false: the handler's second UpdateActivity call
passes the matched route's path, and when another route's ID equals that path
(route "/app" here) that other route's LastActivity is mutated too. -/
theorem c5_counterexample :
    (ServeHTTP [routeA5, routeB5] k8sReady 5 (Request.mk "h" "/app/x" "" "")).updateCalls =
      ["idA", "/app"] ∧
    (ServeHTTP [routeA5, routeB5] k8sReady 5
        (Request.mk "h" "/app/x" "" "")).storeAfter.map
        (fun r => (r.ID, r.LastActivity)) = [("idA", 5), ("/app", 5)] ∧
    routeB5.LastActivity = 0 := by
  exact ⟨by decide, by decide, by decide⟩

/-- C6: matching is not a deterministic function of the registry snapshot as a
set: the same two tied candidate routes, enumerated in the two orders a map
iteration may produce, yield different selected routes. -/
theorem c6_counterexample :
    matchRoute [routeTieA, routeTieB] "h" "/p/x" = some routeTieA ∧
    matchRoute [routeTieB, routeTieA] "h" "/p/x" = some routeTieB ∧
    routeTieA ≠ routeTieB ∧
    List.Perm [routeTieA, routeTieB] [routeTieB, routeTieA] := by
  exact ⟨by decide, by decide, by decide, List.Perm.swap _ _ _⟩

/- Helper lemmas about the readiness scans. -/

/-- The aggregate flag computed by ServeHTTP's readiness loop equals the
initial flag conjoined with per-entry non-blocking status. -/
theorem proxyChain_fst (k8s : K8s) (ns : String) :
    ∀ (names : List String) (b : Bool) (calls : List ScaleCall),
      (names.foldl (proxyChainStep k8s ns) (b, calls)).1 =
        (b && names.all (entryNonBlocking k8s ns)) := by
  intro names
  induction names with
  | nil => intro b calls; simp
  | cons n rest ih =>
    intro b calls
    rw [List.foldl_cons, List.all_cons]
    cases h : k8s ns n with
    | none =>
      simp [proxyChainStep, entryNonBlocking, h, ih]
    | some pr =>
      obtain ⟨d, r⟩ := pr
      by_cases hd : d = 0
      · subst hd
        simp [proxyChainStep, entryNonBlocking, h, ih]
      · by_cases hr : r = 0
        · subst hr
          simp [proxyChainStep, entryNonBlocking, h, hd, ih]
        · simp [proxyChainStep, entryNonBlocking, h, hd, hr, ih]

/-- Scale calls already accumulated are never dropped later in the scan. -/
theorem proxyChain_calls_mono (k8s : K8s) (ns : String) :
    ∀ (names : List String) (acc : Bool × List ScaleCall) (c : ScaleCall),
      c ∈ acc.2 → c ∈ (names.foldl (proxyChainStep k8s ns) acc).2 := by
  intro names
  induction names with
  | nil => intro acc c hc; simpa using hc
  | cons n rest ih =>
    intro acc c hc
    rw [List.foldl_cons]
    apply ih
    cases h : k8s ns n with
    | none => simpa [proxyChainStep, h] using hc
    | some pr =>
      obtain ⟨d, r⟩ := pr
      by_cases hd : d = 0
      · subst hd
        simp only [proxyChainStep, h, if_pos rfl]
        exact List.mem_append_left _ hc
      · by_cases hr : r = 0
        · subst hr; simpa [proxyChainStep, h, hd] using hc
        · simpa [proxyChainStep, h, hd, hr] using hc

/-- Every sleeping entry (desired replicas 0) in the check list receives a
scale-to-1 wake request during ServeHTTP's readiness scan. -/
theorem proxyChain_wake (k8s : K8s) (ns : String) :
    ∀ (names : List String) (acc : Bool × List ScaleCall) (name : String) (r : Nat),
      name ∈ names → k8s ns name = some (0, r) →
      ScaleCall.mk ns name 1 ∈ (names.foldl (proxyChainStep k8s ns) acc).2 := by
  intro names
  induction names with
  | nil => intro acc name r h _; cases h
  | cons n rest ih =>
    intro acc name r hmem hk
    rw [List.foldl_cons]
    rcases List.mem_cons.mp hmem with heq | htail
    · subst heq
      apply proxyChain_calls_mono
      simp [proxyChainStep, hk]
    · exact ih _ name r htail hk

/-- Closed form of handleStatusCheck's status loop: the aggregate flag is the
conjunction of per-entry Ready checks and the detail list enumerates every
entry, in order, with its classified status. -/
theorem statusFold_eq (k8s : K8s) (ns : String) :
    ∀ (names : List String) (b : Bool) (acc : List (String × String)),
      names.foldl (statusStep k8s ns) (b, acc) =
        (b && names.all (fun n => entryStatus k8s ns n == "Ready"),
         acc ++ names.map (fun n => (n, entryStatus k8s ns n))) := by
  intro names
  induction names with
  | nil => intro b acc; simp
  | cons n rest ih =>
    intro b acc
    rw [List.foldl_cons]
    have hstep : statusStep k8s ns (b, acc) n =
        (b && (entryStatus k8s ns n == "Ready"), acc ++ [(n, entryStatus k8s ns n)]) := rfl
    rw [hstep, ih]
    simp [Bool.and_assoc]

/- Helper lemmas about the matcher. -/

/-- The better-match test against a current match is exactly a strict
lexicographic priority comparison. -/
theorem better_iff (m x : RouteConfig) :
    isBetterMatch (some m) x = true ↔
      (prioLen m < prioLen x ∨ (prioLen x = prioLen m ∧ prioHost m < prioHost x)) := by
  unfold isBetterMatch prioLen prioHost
  by_cases h1 : m.Path.length < x.Path.length
  · simp [h1]
  · by_cases hxm : x.Path.length = m.Path.length
    · by_cases hx : x.Host = ""
      · simp [h1, hxm, hx]
      · by_cases hm : m.Host = ""
        · simp [h1, hxm, hx, hm]
        · simp [h1, hxm, hx, hm]
    · simp [h1, hxm]

/-- Failing the better-match test means the challenger's priority is at most
the current match's priority. -/
theorem notBetter_iff (m x : RouteConfig) :
    isBetterMatch (some m) x = false ↔ prLe x m := by
  rw [← Bool.not_eq_true, better_iff]
  unfold prLe
  omega

/-- prLe is reflexive. -/
theorem prLe_refl (a : RouteConfig) : prLe a a := by
  unfold prLe; omega

/-- prLe is transitive. -/
theorem prLe_trans {a b c : RouteConfig} (h1 : prLe a b) (h2 : prLe b c) : prLe a c := by
  unfold prLe at h1 h2 ⊢; omega

/-- Mutually prLe-comparable routes have equal priority. -/
theorem prLe_antisymm {a b : RouteConfig} (h1 : prLe a b) (h2 : prLe b a) :
    prioLen a = prioLen b ∧ prioHost a = prioHost b := by
  unfold prLe at h1 h2; omega

/-- One matching-loop iteration leaves the state unmatched exactly when it was
unmatched and the inspected route is not a candidate. -/
theorem matchStep_eq_none (nh path : String) (acc : Option RouteConfig) (x : RouteConfig) :
    matchStep nh path acc x = none ↔ (acc = none ∧ candMatch nh path x = false) := by
  unfold matchStep
  by_cases hc : candMatch nh path x = true
  · rw [if_pos hc]
    cases acc with
    | none => simp [isBetterMatch, hc]
    | some m =>
      by_cases hb : isBetterMatch (some m) x = true
      · simp [hb, hc]
      · simp [hb, hc]
  · rw [if_neg hc]
    simp [Bool.eq_false_iff.mpr hc]

/-- The matching fold returns no route exactly when it started unmatched and
the remaining snapshot holds no candidate. -/
theorem matchFold_none (nh path : String) :
    ∀ (l : List RouteConfig) (acc : Option RouteConfig),
      l.foldl (matchStep nh path) acc = none ↔
        (acc = none ∧ ∀ r ∈ l, candMatch nh path r = false) := by
  intro l
  induction l with
  | nil => intro acc; simp
  | cons x t ih =>
    intro acc
    rw [List.foldl_cons, ih, matchStep_eq_none]
    simp only [List.mem_cons]
    constructor
    · rintro ⟨⟨ha, hx⟩, ht⟩
      exact ⟨ha, fun r hr => by rcases hr with rfl | hr; exact hx; exact ht r hr⟩
    · rintro ⟨ha, hall⟩
      exact ⟨⟨ha, hall x (Or.inl rfl)⟩, fun r hr => hall r (Or.inr hr)⟩

/-- Soundness and maximality of the matching fold: a returned route either
was the incoming state or is a candidate from the scanned snapshot, it
dominates the incoming state's priority, and it dominates every candidate in
the scanned snapshot. -/
theorem matchFold_max (nh path : String) :
    ∀ (l : List RouteConfig) (acc : Option RouteConfig) (res : RouteConfig),
      l.foldl (matchStep nh path) acc = some res →
      (acc = some res ∨ (res ∈ l ∧ candMatch nh path res = true)) ∧
      (∀ a, acc = some a → prLe a res) ∧
      (∀ x ∈ l, candMatch nh path x = true → prLe x res) := by
  intro l
  induction l with
  | nil =>
    intro acc res h
    simp only [List.foldl_nil] at h
    refine ⟨Or.inl h, fun a ha => ?_, fun x hx => absurd hx (List.not_mem_nil x)⟩
    rw [h] at ha
    cases ha
    exact prLe_refl res
  | cons x t ih =>
    intro acc res h
    rw [List.foldl_cons] at h
    obtain ⟨h1, h2, h3⟩ := ih (matchStep nh path acc x) res h
    by_cases hc : candMatch nh path x = true
    · by_cases hb : isBetterMatch acc x = true
      · have hstep : matchStep nh path acc x = some x := by
          unfold matchStep; rw [if_pos hc, if_pos hb]
        rw [hstep] at h1 h2
        have hxres : prLe x res := h2 x rfl
        refine ⟨?_, ?_, ?_⟩
        · rcases h1 with heq | hmem
          · have hex : x = res := Option.some.inj heq
            subst hex
            exact Or.inr ⟨List.mem_cons_self x t, hc⟩
          · exact Or.inr ⟨List.mem_cons_of_mem _ hmem.1, hmem.2⟩
        · intro a ha
          rw [ha] at hb
          have hax : prLe a x := by
            have := (better_iff a x).mp hb
            unfold prLe
            omega
          exact prLe_trans hax hxres
        · intro y hy hcy
          rcases List.mem_cons.mp hy with rfl | hyt
          · exact hxres
          · exact h3 y hyt hcy
      · have hstep : matchStep nh path acc x = acc := by
          unfold matchStep; rw [if_pos hc, if_neg hb]
        rw [hstep] at h1 h2
        cases hacc : acc with
        | none =>
          rw [hacc] at hb
          exact absurd rfl hb
        | some m =>
          rw [hacc] at h1 h2
          have hmres : prLe m res := h2 m rfl
          have hxm : prLe x m := by
            rw [hacc] at hb
            exact (notBetter_iff m x).mp (Bool.eq_false_iff.mpr hb)
          refine ⟨?_, ?_, ?_⟩
          · rcases h1 with heq | hmem
            · exact Or.inl heq
            · exact Or.inr ⟨List.mem_cons_of_mem _ hmem.1, hmem.2⟩
          · intro a ha
            exact h2 a ha
          · intro y hy hcy
            rcases List.mem_cons.mp hy with rfl | hyt
            · exact prLe_trans hxm hmres
            · exact h3 y hyt hcy
    · have hstep : matchStep nh path acc x = acc := by
        unfold matchStep; rw [if_neg hc]
      rw [hstep] at h1 h2
      refine ⟨?_, h2, ?_⟩
      · rcases h1 with heq | hmem
        · exact Or.inl heq
        · exact Or.inr ⟨List.mem_cons_of_mem _ hmem.1, hmem.2⟩
      · intro y hy hcy
        rcases List.mem_cons.mp hy with rfl | hyt
        · exact absurd hcy hc
        · exact h3 y hyt hcy

/- Helper lemmas about the registry. -/

/-- UpdateActivity preserves every field other than LastActivity, positionally. -/
theorem updateActivity_shape (s : Store) (id : String) (now : Int) :
    (UpdateActivity s id now).map routeShape = s.map routeShape := by
  unfold UpdateActivity
  rw [List.map_map]
  apply List.map_congr_left
  intro r _
  by_cases h : r.ID = id <;> simp [h, routeShape, Function.comp]

/-- UpdateActivity with an id no route carries is the identity. -/
theorem updateActivity_noop (s : Store) (id : String) (now : Int)
    (h : ∀ r ∈ s, r.ID ≠ id) : UpdateActivity s id now = s := by
  unfold UpdateActivity
  conv_rhs => rw [← List.map_id s]
  apply List.map_congr_left
  intro r hr
  simp [h r hr]

/-- Every route in an updated table shares its ID with a route of the
original table. -/
theorem updateActivity_mem_id {s : Store} {id : String} {now : Int} {r2 : RouteConfig}
    (h : r2 ∈ UpdateActivity s id now) : ∃ r ∈ s, r2.ID = r.ID := by
  unfold UpdateActivity at h
  rcases List.mem_map.mp h with ⟨r, hr, he⟩
  refine ⟨r, hr, ?_⟩
  by_cases hid : r.ID = id
  · rw [← he]; simp [hid]
  · rw [← he]; simp [hid]

/-- Positional description of UpdateActivity: the entry with the target id
gets its LastActivity replaced, all other entries are returned unchanged. -/
theorem updateActivity_get (s : Store) (id : String) (now : Int)
    (i : Nat) (h : i < s.length) (h2 : i < (UpdateActivity s id now).length) :
    (UpdateActivity s id now).get ⟨i, h2⟩ =
      if (s.get ⟨i, h⟩).ID = id then { s.get ⟨i, h⟩ with LastActivity := now }
      else s.get ⟨i, h⟩ := by
  simp [UpdateActivity, List.get_eq_getElem, List.getElem_map]

/-- The store a request leaves behind is either untouched or the result of
the handler's two UpdateActivity calls (matched route's ID, then its Path). -/
theorem serveHTTP_storeAfter (s : Store) (k8s : K8s) (now : Int) (req : Request) :
    (ServeHTTP s k8s now req).storeAfter = s ∨
    ∃ route : RouteConfig, (ServeHTTP s k8s now req).storeAfter =
      UpdateActivity (UpdateActivity s route.ID now) route.Path now := by
  unfold ServeHTTP handleStatusCheck
  by_cases hp : req.urlPath = "/__smart_proxy/status"
  · rw [if_pos hp]
    by_cases hq : req.queryPath = ""
    · rw [if_pos hq]; exact Or.inl rfl
    · rw [if_neg hq]
      cases matchRoute (GetAllRoutes s) req.queryHost req.queryPath <;> exact Or.inl rfl
  · rw [if_neg hp]
    cases hm : matchRoute (GetAllRoutes s) req.host req.urlPath with
    | none => exact Or.inl rfl
    | some route =>
      right
      refine ⟨route, ?_⟩
      by_cases hready : (proxyChainCheck k8s route.Namespace (checkList route)).1 = true
      · simp [hready]
      · simp [hready]

/-- C8: registry reads are copies and LastActivity is the only mutable field:
an UpdateActivity after a GetAllRoutes snapshot preserves, positionally, every
field of every route except LastActivity; a whole request leaves the same
shape invariant; and a route whose id differs from the updated one is
returned entirely unchanged.  (The Go-level aliasing guarantee — GetAllRoutes
returns value copies, so later mutation cannot reach a caller-held snapshot —
is what makes this pure-value model of the store sound.) -/
theorem c8_snapshot_frame (s : Store) (id : String) (now : Int) (k8s : K8s) (req : Request) :
    (UpdateActivity s id now).map routeShape = (GetAllRoutes s).map routeShape ∧
    ((ServeHTTP s k8s now req).storeAfter).map routeShape = (GetAllRoutes s).map routeShape ∧
    ∀ (i : Nat) (h : i < s.length) (h2 : i < (UpdateActivity s id now).length),
      ((GetAllRoutes s).get ⟨i, h⟩).ID ≠ id →
      (UpdateActivity s id now).get ⟨i, h2⟩ = (GetAllRoutes s).get ⟨i, h⟩ := by
  refine ⟨updateActivity_shape s id now, ?_, ?_⟩
  · rcases serveHTTP_storeAfter s k8s now req with hid | ⟨route, hupd⟩
    · rw [hid]; rfl
    · rw [hupd, updateActivity_shape, updateActivity_shape]; rfl
  · intro i h h2 hne
    rw [updateActivity_get s id now i h h2]
    exact if_neg hne

/-- C8 witness: concrete one-route store, update under a different id. -/
theorem c8_snapshot_frame_witness :
    (UpdateActivity [routeC1] "other" 7).map routeShape =
      (GetAllRoutes [routeC1]).map routeShape ∧
    (UpdateActivity [routeC1] "other" 7).get ⟨0, by decide⟩ =
      (GetAllRoutes [routeC1]).get ⟨0, by decide⟩ := by
  have h := c8_snapshot_frame [routeC1] "other" 7 k8sReady (Request.mk "h" "/x" "" "")
  exact ⟨h.1, h.2.2 0 (by decide) (by decide) (by decide)⟩

/-- C9: operations on an unknown id are error-free no-ops: UpdateActivity
leaves the table unchanged and GetRoute reports not-found. -/
theorem c9_unknown_id (s : Store) (id : String) (now : Int)
    (h : ∀ r ∈ GetAllRoutes s, r.ID ≠ id) :
    UpdateActivity s id now = s ∧ GetRoute s id = none := by
  refine ⟨updateActivity_noop s id now h, ?_⟩
  unfold GetRoute
  rw [List.find?_eq_none]
  intro r hr
  simpa using h r hr

/-- C9 witness: concrete store, id not present. -/
theorem c9_unknown_id_witness :
    UpdateActivity [routeC1] "missing" 3 = [routeC1] ∧
    GetRoute [routeC1] "missing" = none :=
  c9_unknown_id [routeC1] "missing" 3 (by decide)

/-- The matcher returns no route exactly when the snapshot holds no candidate. -/
theorem matchRoute_none_iff (l : List RouteConfig) (host path : String) :
    matchRoute l host path = none ↔
      ∀ r ∈ l, candMatch (normalizeHost host) path r = false := by
  unfold matchRoute
  rw [matchFold_none]
  simp

/-- A returned route is a candidate from the snapshot whose priority
dominates every candidate in the snapshot. -/
theorem matchRoute_some (l : List RouteConfig) (host path : String) (m : RouteConfig)
    (h : matchRoute l host path = some m) :
    m ∈ l ∧ candMatch (normalizeHost host) path m = true ∧
      ∀ x ∈ l, candMatch (normalizeHost host) path x = true → prLe x m := by
  unfold matchRoute at h
  obtain ⟨h1, _, h3⟩ := matchFold_max (normalizeHost host) path l none m h
  rcases h1 with heq | hmem
  · cases heq
  · exact ⟨hmem.1, hmem.2, h3⟩

/-- C6 (amended): matching is a pure function of the ordered snapshot list;
it is invariant under reordering of the snapshot whenever no two distinct
candidates tie on (prefix length, host specificity).  With such a tie the
first candidate in iteration order wins (see the counterexample), and Go map
iteration order is unspecified. -/
theorem c6_match_permutation (l1 l2 : List RouteConfig) (host path : String)
    (hperm : List.Perm l1 l2)
    (huniq : ∀ r ∈ l1, ∀ r2 ∈ l1,
      candMatch (normalizeHost host) path r = true →
      candMatch (normalizeHost host) path r2 = true →
      prioLen r = prioLen r2 → prioHost r = prioHost r2 → r = r2) :
    matchRoute l1 host path = matchRoute l2 host path := by
  cases e1 : matchRoute l1 host path with
  | none =>
    cases e2 : matchRoute l2 host path with
    | none => rfl
    | some r2 =>
      exfalso
      obtain ⟨hm2, hc2, _⟩ := matchRoute_some l2 host path r2 e2
      have hf : candMatch (normalizeHost host) path r2 = false :=
        (matchRoute_none_iff l1 host path).mp e1 r2 (hperm.mem_iff.mpr hm2)
      rw [hc2] at hf
      cases hf
  | some r1 =>
    cases e2 : matchRoute l2 host path with
    | none =>
      exfalso
      obtain ⟨hm1, hc1, _⟩ := matchRoute_some l1 host path r1 e1
      have hf := (matchRoute_none_iff l2 host path).mp e2 r1 (hperm.mem_iff.mp hm1)
      rw [hc1] at hf
      cases hf
    | some r2 =>
      obtain ⟨hm1, hc1, hmax1⟩ := matchRoute_some l1 host path r1 e1
      obtain ⟨hm2, hc2, hmax2⟩ := matchRoute_some l2 host path r2 e2
      have hm2l1 : r2 ∈ l1 := hperm.mem_iff.mpr hm2
      have p12 : prLe r1 r2 := hmax2 r1 (hperm.mem_iff.mp hm1) hc1
      have p21 : prLe r2 r1 := hmax1 r2 hm2l1 hc2
      obtain ⟨hlen, hhost⟩ := prLe_antisymm p12 p21
      rw [huniq r1 hm1 r2 hm2l1 hc1 hc2 hlen hhost]

/-- C6 witness: two tie-free orderings of the same snapshot match identically. -/
theorem c6_match_permutation_witness :
    matchRoute [routeTieA, routeTieC] "h" "/p/x" =
      matchRoute [routeTieC, routeTieA] "h" "/p/x" :=
  c6_match_permutation [routeTieA, routeTieC] [routeTieC, routeTieA] "h" "/p/x"
    (List.Perm.swap _ _ _) (by decide)

/-- C7: a route is a matching candidate exactly when its host is empty or
equals the port-stripped request host and the request path starts with its
prefix; the selected route is a candidate whose priority (strictly longer
prefix first, then non-empty host at equal length) dominates every candidate;
with no candidate the matcher reports none and ServeHTTP answers not-found. -/
theorem c7_match_selection (routes : List RouteConfig) (req : Request)
    (k8s : K8s) (now : Int) :
    (matchRoute routes req.host req.urlPath = none ↔
      ∀ r ∈ routes, candMatch (normalizeHost req.host) req.urlPath r = false) ∧
    (∀ m, matchRoute routes req.host req.urlPath = some m →
      m ∈ routes ∧ candMatch (normalizeHost req.host) req.urlPath m = true ∧
      ∀ x ∈ routes, candMatch (normalizeHost req.host) req.urlPath x = true → prLe x m) ∧
    (req.urlPath ≠ "/__smart_proxy/status" →
      (∀ r ∈ routes, candMatch (normalizeHost req.host) req.urlPath r = false) →
      (ServeHTTP routes k8s now req).outcome = Outcome.notFound) := by
  refine ⟨matchRoute_none_iff routes req.host req.urlPath, ?_, ?_⟩
  · intro m hm
    exact matchRoute_some routes req.host req.urlPath m hm
  · intro hpath hnone
    have hm : matchRoute (GetAllRoutes routes) req.host req.urlPath = none :=
      (matchRoute_none_iff routes req.host req.urlPath).mpr hnone
    unfold ServeHTTP
    rw [if_neg hpath, hm]

/-- C7 witness: the spec §8 snapshot; the host-specific longer-prefix route
dominates the wildcard catch-all. -/
theorem c7_match_selection_witness :
    routeApi ∈ ([routeWild, routeApi] : List RouteConfig) ∧
    candMatch (normalizeHost "app.example.com") "/api/x" routeApi = true ∧
    prLe routeWild routeApi := by
  have h := c7_match_selection [routeWild, routeApi]
    (Request.mk "app.example.com" "/api/x" "" "") k8sReady 0
  obtain ⟨hmem, hcand, hmax⟩ := h.2.1 routeApi (by decide)
  exact ⟨hmem, hcand, hmax routeWild (by decide) (by decide)⟩

/-- The poll endpoint's effect trace: no scale calls, no activity updates, an
unchanged store, and an outcome that is never a forward. -/
theorem handleStatus_effects (s : Store) (k8s : K8s) (req : Request) :
    (handleStatusCheck s k8s req).scaleCalls = [] ∧
    (handleStatusCheck s k8s req).updateCalls = [] ∧
    (handleStatusCheck s k8s req).storeAfter = s ∧
    ∀ ts nsp pt, (handleStatusCheck s k8s req).outcome ≠ Outcome.forward ts nsp pt := by
  unfold handleStatusCheck
  by_cases hq : req.queryPath = ""
  · rw [if_pos hq]
    exact ⟨rfl, rfl, rfl, fun ts nsp pt h => Outcome.noConfusion h⟩
  · rw [if_neg hq]
    cases matchRoute (GetAllRoutes s) req.queryHost req.queryPath with
    | none => exact ⟨rfl, rfl, rfl, fun ts nsp pt h => Outcome.noConfusion h⟩
    | some route => exact ⟨rfl, rfl, rfl, fun ts nsp pt h => Outcome.noConfusion h⟩

/-- C1 (amended): a matched, non-endpoint request is forwarded if and only if
every entry of the check list is non-blocking, i.e. either its status query
failed (such entries are skipped) or both its desired and its ready replica
counts are non-zero (readiness at the full desired count is not required); in
every other case the loading (wait) response is returned. -/
theorem c1_forward_iff (s : Store) (k8s : K8s) (now : Int) (req : Request)
    (route : RouteConfig)
    (hpath : req.urlPath ≠ "/__smart_proxy/status")
    (hmatch : matchRoute (GetAllRoutes s) req.host req.urlPath = some route) :
    ((ServeHTTP s k8s now req).outcome =
        Outcome.forward route.TargetService route.Namespace route.TargetPort ↔
      (checkList route).all (entryNonBlocking k8s route.Namespace) = true) ∧
    ((checkList route).all (entryNonBlocking k8s route.Namespace) = false →
      (ServeHTTP s k8s now req).outcome = Outcome.loading) := by
  have hfst : (proxyChainCheck k8s route.Namespace (checkList route)).1 =
      (checkList route).all (entryNonBlocking k8s route.Namespace) := by
    unfold proxyChainCheck
    rw [proxyChain_fst]
    simp
  unfold ServeHTTP
  rw [if_neg hpath, hmatch]
  by_cases hb : (checkList route).all (entryNonBlocking k8s route.Namespace) = true
  · constructor
    · simp [hfst, hb]
    · intro hf
      rw [hb] at hf
      cases hf
  · have hb2 : (checkList route).all (entryNonBlocking k8s route.Namespace) = false :=
      Bool.eq_false_iff.mpr hb
    constructor
    · simp [hfst, hb2]
    · intro _
      simp [hfst, hb2]

/-- C1 witness: a fully ready chain is forwarded. -/
theorem c1_forward_iff_witness :
    (ServeHTTP [routeC1] k8sReady 0 (Request.mk "h" "/x" "" "")).outcome =
      Outcome.forward "svc" "ns" 80 := by
  have h := c1_forward_iff [routeC1] k8sReady 0 (Request.mk "h" "/x" "" "") routeC1
    (by decide) (by decide)
  exact h.1.mpr (by decide)

/-- C3 (amended): a failed status query yields entry status Error in the
poll: the scan continues (every entry still appears, in order, in the detail
list) and the aggregate is "waiting"; on the forwarding path, however, an
entry whose query fails is skipped and does not by itself prevent forwarding
— with every query failing, the request is still forwarded. -/
theorem c3_query_error (s : Store) (k8s : K8s) (req : Request) (route : RouteConfig)
    (hq : req.queryPath ≠ "")
    (hmatch : matchRoute (GetAllRoutes s) req.queryHost req.queryPath = some route) :
    (∀ name ∈ checkList route, k8s route.Namespace name = none →
      (handleStatusCheck s k8s req).outcome =
        Outcome.statusResponse "waiting"
          ((checkList route).map (fun n => (n, entryStatus k8s route.Namespace n))) ∧
      (name, "Error") ∈
        (checkList route).map (fun n => (n, entryStatus k8s route.Namespace n))) ∧
    (∀ (now : Int), req.urlPath ≠ "/__smart_proxy/status" →
      matchRoute (GetAllRoutes s) req.host req.urlPath = some route →
      (∀ name ∈ checkList route, k8s route.Namespace name = none) →
      (ServeHTTP s k8s now req).outcome =
        Outcome.forward route.TargetService route.Namespace route.TargetPort) := by
  constructor
  · intro name hname hk
    have hst : entryStatus k8s route.Namespace name = "Error" := by
      unfold entryStatus
      rw [hk]
    have hall : (checkList route).all
        (fun n => entryStatus k8s route.Namespace n == "Ready") = false := by
      apply Bool.eq_false_iff.mpr
      intro ht
      have hmem := List.all_eq_true.mp ht name hname
      rw [hst] at hmem
      exact absurd hmem (by decide)
    constructor
    · unfold handleStatusCheck
      rw [if_neg hq, hmatch]
      simp [statusFold_eq, hall]
    · exact List.mem_map.mpr ⟨name, hname, by rw [hst]⟩
  · intro now hpath hmatch2 hfail
    have hallnb : (checkList route).all (entryNonBlocking k8s route.Namespace) = true :=
      List.all_eq_true.mpr (fun n hn => by simp [entryNonBlocking, hfail n hn])
    unfold ServeHTTP
    rw [if_neg hpath, hmatch2]
    simp [proxyChainCheck, proxyChain_fst, hallnb]

/-- C3 witness: one-entry chain whose query fails. -/
theorem c3_query_error_witness :
    (handleStatusCheck [routeC1] k8sNone (Request.mk "h" "/x" "/x" "h")).outcome =
      Outcome.statusResponse "waiting" [("main", "Error")] := by
  have h := c3_query_error [routeC1] k8sNone (Request.mk "h" "/x" "/x" "h") routeC1
    (by decide) (by decide)
  exact (h.1 "main" (by decide) rfl).1

/-- C4 (amended): the poll repeats matching and classifies a desired-0 entry
as Sleep contributing "waiting", but it issues no scale call, performs no
activity update, leaves the store unchanged and never forwards; the
scale-to-1 wake for a sleeping entry is issued only by the request path. -/
theorem c4_poll_effects (s : Store) (k8s : K8s) (req : Request) :
    (handleStatusCheck s k8s req).scaleCalls = [] ∧
    (handleStatusCheck s k8s req).updateCalls = [] ∧
    (handleStatusCheck s k8s req).storeAfter = s ∧
    (∀ ts nsp pt, (handleStatusCheck s k8s req).outcome ≠ Outcome.forward ts nsp pt) ∧
    (∀ route : RouteConfig, req.queryPath ≠ "" →
      matchRoute (GetAllRoutes s) req.queryHost req.queryPath = some route →
      ∀ name ∈ checkList route, ∀ r : Nat, k8s route.Namespace name = some (0, r) →
        (handleStatusCheck s k8s req).outcome =
          Outcome.statusResponse "waiting"
            ((checkList route).map (fun n => (n, entryStatus k8s route.Namespace n))) ∧
        (name, "Sleep") ∈
          (checkList route).map (fun n => (n, entryStatus k8s route.Namespace n))) ∧
    (∀ (now : Int) (route : RouteConfig), req.urlPath ≠ "/__smart_proxy/status" →
      matchRoute (GetAllRoutes s) req.host req.urlPath = some route →
      ∀ name ∈ checkList route, ∀ r : Nat, k8s route.Namespace name = some (0, r) →
        ScaleCall.mk route.Namespace name 1 ∈ (ServeHTTP s k8s now req).scaleCalls) := by
  obtain ⟨h1, h2, h3, h4⟩ := handleStatus_effects s k8s req
  refine ⟨h1, h2, h3, h4, ?_, ?_⟩
  · intro route hq hmatch name hname r hk
    have hst : entryStatus k8s route.Namespace name = "Sleep" := by
      unfold entryStatus
      rw [hk]
      simp
    have hall : (checkList route).all
        (fun n => entryStatus k8s route.Namespace n == "Ready") = false := by
      apply Bool.eq_false_iff.mpr
      intro ht
      have hmem := List.all_eq_true.mp ht name hname
      rw [hst] at hmem
      exact absurd hmem (by decide)
    constructor
    · unfold handleStatusCheck
      rw [if_neg hq, hmatch]
      simp [statusFold_eq, hall]
    · exact List.mem_map.mpr ⟨name, hname, by rw [hst]⟩
  · intro now route hpath hmatch name hname r hk
    unfold ServeHTTP
    rw [if_neg hpath, hmatch]
    by_cases hb : (proxyChainCheck k8s route.Namespace (checkList route)).1 = true
    · simp only [hb, if_true]
      exact proxyChain_wake k8s route.Namespace (checkList route) (true, []) name r hname hk
    · simp only [Bool.eq_false_iff.mpr hb, if_false]
      exact proxyChain_wake k8s route.Namespace (checkList route) (true, []) name r hname hk

/-- C4 witness: a sleeping one-entry chain polled via the status endpoint. -/
theorem c4_poll_effects_witness :
    (handleStatusCheck [routeC1] k8sAsleep
        (Request.mk "h" "/__smart_proxy/status" "/x" "h")).scaleCalls = [] ∧
    (handleStatusCheck [routeC1] k8sAsleep
        (Request.mk "h" "/__smart_proxy/status" "/x" "h")).outcome =
      Outcome.statusResponse "waiting" [("main", "Sleep")] := by
  have h := c4_poll_effects [routeC1] k8sAsleep
    (Request.mk "h" "/__smart_proxy/status" "/x" "h")
  exact ⟨h.1, (h.2.2.2.2.1 routeC1 (by decide) (by decide) "main" (by decide) 0 rfl).1⟩

/-- C2 (amended): on a reaper tick, a StopOnIdle dependency of an idle route
is scaled to zero exactly when the main deployment's status query succeeds
and reports desired replicas > 0 (a query error, or a main deployment already
at zero, skips the dependency scale-down); every scale call of the per-route
body appears in the tick's call trace. -/
theorem c2_dep_scaledown (k8s : K8s) (now : Int) (route : RouteConfig)
    (dep : DependencyConfig) (hdep : dep ∈ route.Dependencies)
    (hstop : dep.StopOnIdle = true) :
    (ScaleCall.mk route.Namespace dep.Name 0 ∈ reapRoute k8s now route ↔
      (now - route.LastActivity > route.IdleTimeout ∧
        ∃ d r : Nat, k8s route.Namespace route.Deployment = some (d, r) ∧ 0 < d)) ∧
    ∀ (s : Store), route ∈ GetAllRoutes s →
      ∀ c ∈ reapRoute k8s now route, c ∈ checkIdleRoutes s k8s now := by
  constructor
  · by_cases hidle : now - route.LastActivity > route.IdleTimeout
    · cases hk : k8s route.Namespace route.Deployment with
      | none =>
        have hred : reapRoute k8s now route = [] := by
          unfold reapRoute
          rw [if_pos hidle, hk]
        rw [hred]
        simp [hk]
      | some pr =>
        obtain ⟨d, r⟩ := pr
        have hred : reapRoute k8s now route =
            if d > 0 then
              ScaleCall.mk route.Namespace route.Deployment 0 ::
                (route.Dependencies.filter (fun x => x.StopOnIdle)).map
                  (fun x => ScaleCall.mk route.Namespace x.Name 0)
            else [] := by
          unfold reapRoute
          rw [if_pos hidle, hk]
        rw [hred]
        by_cases hd : d > 0
        · rw [if_pos hd]
          constructor
          · intro _
            exact ⟨hidle, d, r, rfl, hd⟩
          · intro _
            exact List.mem_cons.mpr (Or.inr (List.mem_map.mpr
              ⟨dep, List.mem_filter.mpr ⟨hdep, hstop⟩, rfl⟩))
        · rw [if_neg hd]
          constructor
          · intro hmem
            exact absurd hmem (List.not_mem_nil _)
          · rintro ⟨_, d2, r2, heq, hpos⟩
            injection heq with h2
            injection h2 with hdd hrr
            subst hdd
            exact absurd hpos hd
    · have hred : reapRoute k8s now route = [] := by
        unfold reapRoute
        rw [if_neg hidle]
      rw [hred]
      simp [hidle]
  · intro s hs c hc
    unfold checkIdleRoutes
    exact List.mem_flatMap.mpr ⟨route, hs, hc⟩

/-- C2 witness: idle route, main deployment running at 1 replica. -/
theorem c2_dep_scaledown_witness :
    ScaleCall.mk "ns" "dep1" 0 ∈ reapRoute k8sReady 100 routeC2 := by
  have h := c2_dep_scaledown k8sReady 100 routeC2 (DependencyConfig.mk "dep1" true)
    (by decide) rfl
  exact h.1.mpr ⟨by decide, 1, 1, rfl, by decide⟩

/-- C5 (amended): on a matched, non-endpoint request the handler invokes
UpdateActivity twice — once with the matched route's ID and once with its
Path, in that order; whenever no route's ID equals the matched route's Path,
the second call is a no-op and the net registry effect is exactly the single
activity refresh of the matched route. -/
theorem c5_update_calls (s : Store) (k8s : K8s) (now : Int) (req : Request)
    (route : RouteConfig)
    (hpath : req.urlPath ≠ "/__smart_proxy/status")
    (hmatch : matchRoute (GetAllRoutes s) req.host req.urlPath = some route) :
    (ServeHTTP s k8s now req).updateCalls = [route.ID, route.Path] ∧
    ((∀ r ∈ GetAllRoutes s, r.ID ≠ route.Path) →
      (ServeHTTP s k8s now req).storeAfter = UpdateActivity s route.ID now) := by
  have hcase : (ServeHTTP s k8s now req).updateCalls = [route.ID, route.Path] ∧
      (ServeHTTP s k8s now req).storeAfter =
        UpdateActivity (UpdateActivity s route.ID now) route.Path now := by
    unfold ServeHTTP
    rw [if_neg hpath, hmatch]
    by_cases hb : (proxyChainCheck k8s route.Namespace (checkList route)).1 = true
    · simp [hb]
    · simp [Bool.eq_false_iff.mpr hb]
  refine ⟨hcase.1, fun hna => ?_⟩
  rw [hcase.2]
  apply updateActivity_noop
  intro r2 hr2
  obtain ⟨r, hr, hid⟩ := updateActivity_mem_id hr2
  rw [hid]
  exact hna r hr

/-- C5 witness: single-route store; the path-keyed second call is a no-op. -/
theorem c5_update_calls_witness :
    (ServeHTTP [routeA5] k8sReady 5 (Request.mk "h" "/app/x" "" "")).updateCalls =
      ["idA", "/app"] ∧
    (ServeHTTP [routeA5] k8sReady 5 (Request.mk "h" "/app/x" "" "")).storeAfter =
      UpdateActivity [routeA5] "idA" 5 := by
  have h := c5_update_calls [routeA5] k8sReady 5 (Request.mk "h" "/app/x" "" "") routeA5
    (by decide) (by decide)
  exact ⟨h.1, h.2 (by decide)⟩

/-- C10: a request whose URL path is exactly the status endpoint runs the
poll instead of routing: no activity update, no scale call from the poll, an
unchanged store, and never a forward to any backend — independently of the
configured routes, including a catch-all prefix. -/
theorem c10_status_endpoint (s : Store) (k8s : K8s) (now : Int) (host qp qh : String) :
    (ServeHTTP s k8s now (Request.mk host "/__smart_proxy/status" qp qh)).updateCalls = [] ∧
    (ServeHTTP s k8s now (Request.mk host "/__smart_proxy/status" qp qh)).scaleCalls = [] ∧
    (ServeHTTP s k8s now (Request.mk host "/__smart_proxy/status" qp qh)).storeAfter = s ∧
    ∀ ts nsp pt,
      (ServeHTTP s k8s now (Request.mk host "/__smart_proxy/status" qp qh)).outcome ≠
        Outcome.forward ts nsp pt := by
  have hserve : ServeHTTP s k8s now (Request.mk host "/__smart_proxy/status" qp qh) =
      handleStatusCheck s k8s (Request.mk host "/__smart_proxy/status" qp qh) := by
    unfold ServeHTTP
    rw [if_pos rfl]
  obtain ⟨h1, h2, h3, h4⟩ :=
    handleStatus_effects s k8s (Request.mk host "/__smart_proxy/status" qp qh)
  rw [hserve]
  exact ⟨h2, h1, h3, h4⟩

/-- C10 witness: even with the catch-all route configured, the status path is
not routed or forwarded. -/
theorem c10_status_endpoint_witness :
    (ServeHTTP [routeWild] k8sReady 0
        (Request.mk "h" "/__smart_proxy/status" "/x" "h")).updateCalls = [] ∧
    (ServeHTTP [routeWild] k8sReady 0
        (Request.mk "h" "/__smart_proxy/status" "/x" "h")).outcome ≠
      Outcome.forward "s1" "ns" 80 := by
  have h := c10_status_endpoint [routeWild] k8sReady 0 "h" "/x" "h"
  exact ⟨h.1, h.2.2.2 "s1" "ns" 80⟩

end SmartProxy
